import Mathlib

/-!
Shallow embedding of the svelte-pdf-view viewer core, checked against its
natural-language specification.

Sources embedded here:
- FindController.ts (text search: find / findNext / findPrevious / matchesCount),
- PDFViewerCore (rotation and scale setters, page-slot collection, scroll-driven
  rendering queue, scrollToPage),
- PDFPageView (draw lifecycle over the RenderingStates machine),
- DrawingLayer onMouseUp, convertNormalizedBoundingBoxes and
  BoundingBoxLayer.renderBox (pixel-space / document-space conversions).

Strings are modelled as List Char; JavaScript String.prototype.toLowerCase is
modelled per character (Char.toLower), which is length-preserving and agrees
with JavaScript on the ASCII range; JavaScript number arithmetic on the
geometry paths is modelled over the rationals (exact arithmetic in place of
floating point); the JavaScript remainder operator on integers is Int.tmod
(sign of the dividend).
-/

/-- RenderingStates of PDFPageView: INITIAL = 0, RUNNING = 1, PAUSED = 2,
FINISHED = 3. -/
inductive RState where
  | initial
  | running
  | paused
  | finished
  deriving DecidableEq, Repr

/-- Test for a JavaScript word character, the regex character class used by
the entire-word check in FindController.find (ASCII letters, digits and the
underscore). -/
def isWordChar (c : Char) : Bool :=
  ('a' ≤ c && c ≤ 'z') || ('A' ≤ c && c ≤ 'Z') || ('0' ≤ c && c ≤ '9') || c == '_'

/-- The query occurs in the haystack at position p (the needle is a prefix of
the haystack once the first p characters are dropped). -/
def occursAt (needle haystack : List Char) (p : Nat) : Bool :=
  needle.isPrefixOf (haystack.drop p)

/-- searchText.indexOf(searchQuery, pos) from FindController.find: the least
position at or after pos where the needle occurs, scanning positions one by
one; fuel bounds the scan and is always passed as haystack.length + 1, enough
to reach the end of the haystack. -/
def jsIndexOfFrom (needle haystack : List Char) : Nat → Nat → Option Nat
  | _, 0 => none
  | pos, fuel + 1 =>
    if occursAt needle haystack pos then some pos
    else jsIndexOfFrom needle haystack (pos + 1) fuel

/-- The entire-word test of FindController.find: the characters adjacent to
the candidate match (a space when the match touches either end of the page
text) must not be word characters. -/
def entireWordOk (searchText needle : List Char) (pos : Nat) : Bool :=
  let before := if 0 < pos then searchText.getD (pos - 1) ' ' else ' '
  let after :=
    if pos + needle.length < searchText.length then searchText.getD (pos + needle.length) ' '
    else ' '
  !(isWordChar before || isWordChar after)

/-- The while ((pos = searchText.indexOf(searchQuery, pos)) !== -1) loop of
FindController.find: every found position is recorded (unless the optional
entire-word test rejects it) and the scan resumes at the found position plus
one. The outer fuel is always called with haystack.length + 1, enough for the
strictly increasing scan position to pass the end of the haystack. -/
def scanMatches (needle haystack : List Char) (entireWord : Bool) : Nat → Nat → List Nat
  | _, 0 => []
  | pos, fuel + 1 =>
    match jsIndexOfFrom needle haystack pos (haystack.length + 1) with
    | none => []
    | some p =>
      if entireWord && !(entireWordOk haystack needle p) then
        scanMatches needle haystack entireWord (p + 1) fuel
      else
        p :: scanMatches needle haystack entireWord (p + 1) fuel

/-- The fragment-lookup loop of FindController.find ("Find which div this
match belongs to"): walk the text items accumulating charIndex; stop at the
first item whose end exceeds pos, reporting that item's index and the
accumulated character count. If the loop runs off the end (impossible for a
valid match position) divIndex keeps its initial value 0, exactly as in the
source. -/
def divLookupAux (items : List (List Char)) (pos charIndex j : Nat) : Nat × Nat :=
  match items with
  | [] => (0, charIndex)
  | item :: rest =>
    if charIndex + item.length > pos then (j, charIndex)
    else divLookupAux rest pos (charIndex + item.length) (j + 1)

/-- Fragment lookup for a flat match offset, started as in the source with
charIndex = 0 and divIndex = 0. Returns (divIndex, charIndex). -/
def divLookup (items : List (List Char)) (pos : Nat) : Nat × Nat :=
  divLookupAux items pos 0 0

/-- Cumulative length table over the page's fragments: the total length of the
first j fragments. -/
def cumLen (items : List (List Char)) (j : Nat) : Nat :=
  ((items.take j).map List.length).sum

/-- Per-character model of String.prototype.toLowerCase. -/
def jsToLower (s : List Char) : List Char :=
  s.map Char.toLower

/-- Model of String.prototype.trim: whitespace stripped from both ends. -/
def jsTrim (s : List Char) : List Char :=
  ((s.dropWhile Char.isWhitespace).reverse.dropWhile Char.isWhitespace).reverse

/-- A located match, as pushed onto FindController.allMatches: page index,
index of the match within its page, index of the text fragment the match
starts in, offset of the match within that fragment, and the match length. -/
structure PageMatch where
  pageIndex : Nat
  matchIndex : Nat
  divIndex : Nat
  offset : Nat
  length : Nat
  deriving DecidableEq, Repr

/-- The per-page body of FindController.find: join the page's text fragments
with no separator, case-fold haystack and query unless caseSensitive, scan for
matches, and map each flat position to a (divIndex, offset-in-fragment) pair
through the fragment-lookup loop. -/
def pageSearch (pageIndex : Nat) (textItems : List (List Char)) (query : List Char)
    (caseSensitive entireWord : Bool) : List PageMatch :=
  let fullText := textItems.flatten
  let searchText := if caseSensitive then fullText else jsToLower fullText
  let searchQuery := if caseSensitive then query else jsToLower query
  (scanMatches searchQuery searchText entireWord 0 (searchText.length + 1)).enum.map
    (fun mi =>
      let dc := divLookupAux textItems mi.2 0 0
      { pageIndex := pageIndex, matchIndex := mi.1, divIndex := dc.1,
        offset := mi.2 - dc.2, length := searchQuery.length })

/-- The whole-document search loop of FindController.find: every page is
scanned in order and the per-page match lists are concatenated into the
global, page-ordered allMatches list. -/
def searchAllPages (pages : List (List (List Char))) (query : List Char)
    (caseSensitive entireWord : Bool) : List PageMatch :=
  (pages.enum.map (fun pi => pageSearch pi.1 pi.2 query caseSensitive entireWord)).flatten

/-- The matchesCount pair dispatched by FindController: 1-indexed current (0
when no match is selected) and total. -/
structure MatchesCount where
  current : Nat
  total : Nat
  deriving DecidableEq, Repr

/-- Events dispatched by FindController on its event bus: find control states
(FOUND = 0, NOT_FOUND = 1, WRAPPED = 2, PENDING = 3), matches-count updates,
and the scroll-to-page call issued by scrollToSelectedMatch. -/
inductive FindEvent where
  | controlState (state : Nat)
  | matchesCountEvent (c : MatchesCount)
  | scrollToPageEvent (pageNumber : Nat)
  deriving DecidableEq, Repr

/-- The mutable fields of FindController relevant to search behaviour.
highlighted models highlightedElements: the indices (into allMatches) of the
matches whose highlight spans currently exist in the DOM. -/
structure FindState where
  query : List Char
  highlightAll : Bool
  caseSensitive : Bool
  entireWord : Bool
  allMatches : List PageMatch
  selectedMatchIndex : Int
  highlighted : List Nat
  deriving DecidableEq, Repr

/-- The options object taken by FindController.find, with the source's
defaults made explicit at every call site. -/
structure FindOptions where
  query : List Char
  highlightAll : Bool
  caseSensitive : Bool
  entireWord : Bool
  findPrevious : Bool
  deriving DecidableEq, Repr

/-- The match indices highlighted by highlightMatches: nothing when
highlightAll is off and no match is selected; otherwise every match when
highlightAll is set, and only the selected one when it is not. -/
def highlightTargets (highlightAll : Bool) (n : Nat) (selected : Int) : List Nat :=
  if !highlightAll && selected == -1 then []
  else (List.range n).filter (fun i => highlightAll || ((i : Int) == selected))

/-- The scroll event issued by scrollToSelectedMatch: nothing when no match is
selected or the selected index is out of range, otherwise a scroll to the
selected match's 1-indexed page. -/
def selectedScrollEvents (s : FindState) : List FindEvent :=
  if s.selectedMatchIndex == -1 then []
  else
    match s.allMatches.get? s.selectedMatchIndex.toNat with
    | none => []
    | some m => [FindEvent.scrollToPageEvent (m.pageIndex + 1)]

/-- FindController.find. Clears highlights; an empty or whitespace-only query
resets the match state and reports {current: 0, total: 0}; otherwise all
pages are searched, the first (or, with findPrevious, last) match is selected
when any exists, highlights are rebuilt, the selected match's page is
scrolled to, and control-state plus matches-count events are dispatched. -/
def findOp (pages : List (List (List Char))) (opts : FindOptions) (s : FindState) :
    FindState × List FindEvent :=
  let s0 := { s with highlighted := ([] : List Nat) }
  if opts.query.isEmpty || (jsTrim opts.query).isEmpty then
    ({ s0 with query := [], allMatches := [], selectedMatchIndex := -1 },
      [FindEvent.matchesCountEvent ⟨0, 0⟩])
  else
    let allMatches := searchAllPages pages opts.query opts.caseSensitive opts.entireWord
    let s1 := { s0 with query := opts.query, highlightAll := opts.highlightAll,
                        caseSensitive := opts.caseSensitive, entireWord := opts.entireWord,
                        allMatches := allMatches }
    if 0 < allMatches.length then
      let sel : Int := if opts.findPrevious then (allMatches.length : Int) - 1 else 0
      let s2 := { s1 with selectedMatchIndex := sel,
                          highlighted := highlightTargets opts.highlightAll allMatches.length sel }
      (s2, FindEvent.controlState 3 ::
            (selectedScrollEvents s2 ++
              [FindEvent.controlState 0,
                FindEvent.matchesCountEvent ⟨(sel + 1).toNat, allMatches.length⟩]))
    else
      let s2 := { s1 with selectedMatchIndex := -1 }
      (s2, [FindEvent.controlState 3, FindEvent.controlState 1,
            FindEvent.matchesCountEvent ⟨0, allMatches.length⟩])

/-- FindController.findNext: a no-op with no events when there are no
matches; otherwise the selected index advances by one modulo the match count
(the JavaScript remainder on these non-negative operands), highlights are
rebuilt, the selected match's page is scrolled to, and WRAPPED is reported
exactly when the new selected index is 0. -/
def findNextOp (s : FindState) : FindState × List FindEvent :=
  if s.allMatches.length == 0 then (s, [])
  else
    let sel := Int.tmod (s.selectedMatchIndex + 1) (s.allMatches.length : Int)
    let s2 := { s with selectedMatchIndex := sel,
                       highlighted := highlightTargets s.highlightAll s.allMatches.length sel }
    let wrapped := sel == 0
    (s2, selectedScrollEvents s2 ++
          [FindEvent.controlState (if wrapped then 2 else 0),
            FindEvent.matchesCountEvent ⟨(sel + 1).toNat, s.allMatches.length⟩])

/-- FindController.findPrevious: a no-op with no events when there are no
matches; otherwise the selected index steps back by one modulo the match
count, and WRAPPED is reported exactly when the new selected index is the
last one. -/
def findPreviousOp (s : FindState) : FindState × List FindEvent :=
  if s.allMatches.length == 0 then (s, [])
  else
    let sel := Int.tmod (s.selectedMatchIndex - 1 + (s.allMatches.length : Int))
      (s.allMatches.length : Int)
    let s2 := { s with selectedMatchIndex := sel,
                       highlighted := highlightTargets s.highlightAll s.allMatches.length sel }
    let wrapped := sel == (s.allMatches.length : Int) - 1
    (s2, selectedScrollEvents s2 ++
          [FindEvent.controlState (if wrapped then 2 else 0),
            FindEvent.matchesCountEvent ⟨(sel + 1).toNat, s.allMatches.length⟩])

/-- The state component of findNext, for iterating navigation. -/
def findNextState (s : FindState) : FindState :=
  (findNextOp s).1

/-- The matchesCount getter of FindController. -/
def matchesCount (s : FindState) : MatchesCount :=
  ⟨(s.selectedMatchIndex + 1).toNat, s.allMatches.length⟩

/-- Specification-level occurrence count on one page: the number of distinct
start positions at which the (optionally case-folded) query occurs in the
page's concatenated fragment text. -/
def countOccurrencesPage (textItems : List (List Char)) (query : List Char)
    (caseSensitive : Bool) : Nat :=
  let hay := if caseSensitive then textItems.flatten else jsToLower textItems.flatten
  let ndl := if caseSensitive then query else jsToLower query
  ((List.range hay.length).filter (occursAt ndl hay)).length

/-- Specification-level occurrence count across the whole document. -/
def countOccurrences (pages : List (List (List Char))) (query : List Char)
    (caseSensitive : Bool) : Nat :=
  (pages.map (fun items => countOccurrencesPage items query caseSensitive)).sum

/-- The match-accepting predicate realized by the scan loop: the query occurs
at the position and, when the entire-word option is set, the adjacent
characters pass the word-boundary test. -/
def acceptPos (needle haystack : List Char) (entireWord : Bool) (p : Nat) : Bool :=
  occursAt needle haystack p && (!entireWord || entireWordOk haystack needle p)

/-- The rotation setter's normalization in PDFViewerCore:
((value % 360) + 360) % 360 with the JavaScript remainder. -/
def setRotationValue (value : Int) : Int :=
  Int.tmod (Int.tmod value 360 + 360) 360

/-- MIN_SCALE of PDFViewerCore. -/
def MIN_SCALE : ℚ := 1 / 10

/-- MAX_SCALE of PDFViewerCore. -/
def MAX_SCALE : ℚ := 10

/-- DEFAULT_SCALE_DELTA of PDFViewerCore. -/
def DEFAULT_SCALE_DELTA : ℚ := 1 / 10

/-- The scale setter's clamp in PDFViewerCore:
Math.max(MIN_SCALE, Math.min(MAX_SCALE, value)). -/
def clampScale (value : ℚ) : ℚ :=
  max MIN_SCALE (min MAX_SCALE value)

/-- The public rotation operations of PDFViewerCore: rotateClockwise,
rotateCounterClockwise, and an assignment through the rotation setter. -/
inductive RotOp where
  | clockwise
  | counterClockwise
  | assign (value : Int)
  deriving DecidableEq, Repr

/-- One rotation operation on the current rotation, as implemented by the
setter (rotateClockwise assigns current + 90, rotateCounterClockwise assigns
current - 90; the setter's early return on an unchanged value leaves the same
number either way). -/
def applyRotOp (r : Int) (op : RotOp) : Int :=
  match op with
  | RotOp.clockwise => setRotationValue (r + 90)
  | RotOp.counterClockwise => setRotationValue (r - 90)
  | RotOp.assign v => setRotationValue v

/-- A sequence of rotation operations applied from a starting rotation. -/
def applyRotOps (r : Int) (ops : List RotOp) : Int :=
  ops.foldl applyRotOp r

/-- The per-slot fields of PDFPageView touched by PDFViewerCore's scale and
rotation setters. -/
structure PageViewM where
  scale : ℚ
  rotation : Int
  renderingState : RState
  deriving DecidableEq, Repr

/-- PDFPageView.update({scale, rotation}): store the new values and, when the
slot is FINISHED, resetCanvas puts it back to INITIAL and draw is re-entered,
which immediately moves it to RUNNING. Slots in other states only store the
pending values. -/
def PageViewM.update (p : PageViewM) (sOpt : Option ℚ) (rOpt : Option Int) : PageViewM :=
  let p1 := match sOpt with
    | some v => { p with scale := v }
    | none => p
  let p2 := match rOpt with
    | some v => { p1 with rotation := v }
    | none => p1
  if p2.renderingState = RState.finished then { p2 with renderingState := RState.running }
  else p2

/-- The fields of PDFViewerCore driving the page-slot collection. -/
structure CoreState where
  pages : List PageViewM
  currentScale : ℚ
  currentRotation : Int
  deriving DecidableEq, Repr

/-- The synchronous effect of updateVisiblePages on the slots, with the
visible range (a DOM-geometry computation) supplied as an oracle list of
indices: slots in the range still at INITIAL are queued and the serial queue
begins drawing them (draw moves a slot to RUNNING); the slot list itself is
never grown or shrunk by a visibility pass. The async queue mechanics are
modelled exactly in SchedState below; here only the per-slot field effect
matters. -/
def updateVisiblePagesM (vis : List Nat) (s : CoreState) : CoreState :=
  { s with pages := s.pages.enum.map (fun ip =>
      if ip.1 ∈ vis && ip.2.renderingState == RState.initial then
        { ip.2 with renderingState := RState.running }
      else ip.2) }

/-- The public viewport operations of PDFViewerCore that change scale or
rotation, each carrying the oracle visible range for the visibility pass the
setter triggers. -/
inductive ViewerOp where
  | setScale (value : ℚ) (vis : List Nat)
  | setRotation (value : Int) (vis : List Nat)
  | zoomIn (vis : List Nat)
  | zoomOut (vis : List Nat)
  | rotateClockwise (vis : List Nat)
  | rotateCounterClockwise (vis : List Nat)
  deriving DecidableEq, Repr

/-- The scale setter of PDFViewerCore: clamp, early-return when unchanged,
otherwise store and broadcast page.update({scale}) to every slot, then run a
visibility pass. -/
def setScaleOp (s : CoreState) (value : ℚ) (vis : List Nat) : CoreState :=
  let newScale := clampScale value
  if newScale = s.currentScale then s
  else
    updateVisiblePagesM vis
      { s with currentScale := newScale,
               pages := s.pages.map (fun p => p.update (some newScale) none) }

/-- The rotation setter of PDFViewerCore: normalize mod 360, early-return when
unchanged, otherwise store and broadcast page.update({rotation}) to every
slot, then run a visibility pass. -/
def setRotationOp (s : CoreState) (value : Int) (vis : List Nat) : CoreState :=
  let newRotation := setRotationValue value
  if newRotation = s.currentRotation then s
  else
    updateVisiblePagesM vis
      { s with currentRotation := newRotation,
               pages := s.pages.map (fun p => p.update none (some newRotation)) }

/-- One public viewport operation of PDFViewerCore. -/
def applyViewerOp (s : CoreState) (op : ViewerOp) : CoreState :=
  match op with
  | ViewerOp.setScale v vis => setScaleOp s v vis
  | ViewerOp.setRotation v vis => setRotationOp s v vis
  | ViewerOp.zoomIn vis => setScaleOp s (s.currentScale + DEFAULT_SCALE_DELTA) vis
  | ViewerOp.zoomOut vis => setScaleOp s (s.currentScale - DEFAULT_SCALE_DELTA) vis
  | ViewerOp.rotateClockwise vis => setRotationOp s (s.currentRotation + 90) vis
  | ViewerOp.rotateCounterClockwise vis => setRotationOp s (s.currentRotation - 90) vis

/-- A sequence of public viewport operations. -/
def applyViewerOps (s : CoreState) (ops : List ViewerOp) : CoreState :=
  ops.foldl applyViewerOp s

/-- PDFViewerCore.setDocument: after cleanup of the previous document, one
PDFPageView per document page is created (ids 1..numPages) at the current
scale and rotation, every slot starting at INITIAL. -/
def setDocumentM (numPages : Nat) (scale : ℚ) (rotation : Int) : CoreState :=
  { pages := (List.range numPages).map
      (fun _ => { scale := scale, rotation := rotation, renderingState := RState.initial }),
    currentScale := scale, currentRotation := rotation }

/-- Events observable from PDFViewerCore.scrollToPage: the DOM
scrollIntoView on the target page's element and the pagechanged dispatch. -/
inductive ViewerEvent where
  | scrolledIntoView (pageNumber : Int)
  | pagechanged (pageNumber : Int)
  deriving DecidableEq, Repr

/-- PDFViewerCore.scrollToPage: silently ignored when the 1-indexed page
number is below 1 or above the page count; otherwise the page's element is
scrolled into view and pagechanged is dispatched. The viewer state itself is
never modified. -/
def scrollToPageOp (s : CoreState) (pageNumber : Int) : CoreState × List ViewerEvent :=
  if pageNumber < 1 || (s.pages.length : Int) < pageNumber then (s, [])
  else (s, [ViewerEvent.scrolledIntoView pageNumber, ViewerEvent.pagechanged pageNumber])

/-- Resolution of an awaited page raster job in PDFPageView.draw: the render
promise fulfills, rejects with RenderingCancelledException, or rejects with
any other error. -/
inductive DrawOutcome where
  | success
  | cancelled
  | failure
  deriving DecidableEq, Repr

/-- The scheduler fields of PDFViewerCore, for the serial rendering queue:
per-slot render states, the renderingQueue Set (insertion-ordered, no
duplicates), the isRendering flag, and the raster jobs currently in flight
(each started draw appends one entry; the single-in-flight property is proved,
not assumed). -/
structure SchedState where
  pages : List RState
  renderingQueue : List Nat
  isRendering : Bool
  active : List Nat
  deriving DecidableEq, Repr

/-- Set.add on the insertion-ordered renderingQueue: appends unless already
present. -/
def setAdd (q : List Nat) (i : Nat) : List Nat :=
  if i ∈ q then q else q ++ [i]

/-- The queueing loop of updateVisiblePages: every index of the computed
range whose slot is still INITIAL is added to the renderingQueue. -/
def enqueueVisible (pages : List RState) (q : List Nat) (r : List Nat) : List Nat :=
  r.foldl (fun acc i => if pages.get? i = some RState.initial then setAdd acc i else acc) q

/-- The synchronous prefix of the while loop of processRenderingQueue: pop
queue entries in insertion order, skipping slots that are missing or no
longer INITIAL, until one can be drawn; draw moves that slot to RUNNING and
issues the raster job, and the loop suspends awaiting it. Returns the updated
slot states, the remaining queue, and the index of the started job, if any. -/
def drainQueue (pages : List RState) (q : List Nat) : List RState × List Nat × Option Nat :=
  match q with
  | [] => (pages, [], none)
  | i :: rest =>
    if pages.get? i = some RState.initial then (pages.set i RState.running, rest, some i)
    else drainQueue pages rest

/-- Entry into processRenderingQueue: an immediate return when a drain is
already in progress or the queue is empty; otherwise isRendering is set and
the loop runs to its first suspension (or termination, which clears
isRendering again). -/
def processQueueEntry (s : SchedState) : SchedState :=
  if s.isRendering || s.renderingQueue.length == 0 then s
  else
    match (drainQueue s.pages s.renderingQueue).2.2 with
    | some i =>
      { pages := (drainQueue s.pages s.renderingQueue).1,
        renderingQueue := (drainQueue s.pages s.renderingQueue).2.1,
        isRendering := true, active := s.active ++ [i] }
    | none => { s with renderingQueue := [], isRendering := false }

/-- The event-loop turns that drive the scheduler: a debounced scroll (or
initial) visibility pass over an oracle visible range, or the resolution of
the awaited raster job. -/
inductive SchedAction where
  | visibilityPass (r : List Nat)
  | drawComplete (outcome : DrawOutcome)
  deriving DecidableEq, Repr

/-- The slot states after the completed draw of slot i resolves: success
moves it to FINISHED, a non-cancellation failure logs and puts it back to
INITIAL, and a cancellation returns leaving the state to whoever cancelled. -/
def completePages (pages : List RState) (i : Nat) (outcome : DrawOutcome) : List RState :=
  match outcome with
  | DrawOutcome.success => pages.set i RState.finished
  | DrawOutcome.failure => pages.set i RState.initial
  | DrawOutcome.cancelled => pages

/-- Resumption of the suspended while loop of processRenderingQueue once the
awaited draw of slot i resolves: record the outcome on that slot, then drain
the queue to the next startable slot or, when the queue is exhausted, clear
isRendering. -/
def completeStep (s : SchedState) (outcome : DrawOutcome) (i : Nat)
    (restActive : List Nat) : SchedState :=
  match (drainQueue (completePages s.pages i outcome) s.renderingQueue).2.2 with
  | some j =>
    { pages := (drainQueue (completePages s.pages i outcome) s.renderingQueue).1,
      renderingQueue := (drainQueue (completePages s.pages i outcome) s.renderingQueue).2.1,
      isRendering := true, active := restActive ++ [j] }
  | none =>
    { pages := (drainQueue (completePages s.pages i outcome) s.renderingQueue).1,
      renderingQueue := [], isRendering := false, active := restActive }

/-- One event-loop turn: a visibility pass enqueues the INITIAL slots of its
range and calls processRenderingQueue; a draw completion resolves the oldest
in-flight job and resumes the suspended while loop. -/
def applySchedAction (s : SchedState) (a : SchedAction) : SchedState :=
  match a with
  | SchedAction.visibilityPass r =>
    processQueueEntry
      { s with renderingQueue := enqueueVisible s.pages s.renderingQueue r }
  | SchedAction.drawComplete outcome =>
    match s.active with
    | [] => s
    | i :: restActive => completeStep s outcome i restActive

/-- A sequence of event-loop turns. -/
def applySchedActions (s : SchedState) (acts : List SchedAction) : SchedState :=
  acts.foldl applySchedAction s

/-- The scheduler right after setDocument: every slot INITIAL, empty queue,
no drain in progress, no raster job in flight. -/
def initSched (numPages : Nat) : SchedState :=
  { pages := List.replicate numPages RState.initial, renderingQueue := [],
    isRendering := false, active := [] }

/-- Scheduler invariant maintained by every event-loop turn: a cleared
isRendering flag means no raster job is in flight, at most one raster job is
in flight at any time, and every in-flight job's slot is RUNNING. -/
def SchedInv (s : SchedState) : Prop :=
  (s.isRendering = false → s.active = []) ∧ s.active.length ≤ 1 ∧
    ∀ i ∈ s.active, s.pages.get? i = some RState.running

/-- Observable effects of one PDFPageView.draw call: the pagerendered
dispatch on success, and the console.error log on a non-cancellation
failure. -/
inductive DrawEvent where
  | pagerendered
  | consoleError
  deriving DecidableEq, Repr

/-- One call to PDFPageView.draw, given whether a pdfPage is attached, the
entry renderingState, and how the awaited raster job resolves. Returns the
sequence of renderingState assignments the call performs and the events it
emits. The guard returns immediately unless a page is attached and the state
is INITIAL; otherwise the state is set to RUNNING and the raster job is
awaited: on success the state becomes FINISHED and pagerendered is
dispatched; on RenderingCancelledException the catch returns silently without
touching the state; on any other error the state is set back to INITIAL and
the error is only logged. -/
def drawRun (hasPdfPage : Bool) (st : RState) (outcome : DrawOutcome) :
    List RState × List DrawEvent :=
  if !hasPdfPage || st != RState.initial then ([], [])
  else
    match outcome with
    | DrawOutcome.success => ([RState.running, RState.finished], [DrawEvent.pagerendered])
    | DrawOutcome.cancelled => ([RState.running], [])
    | DrawOutcome.failure => ([RState.running, RState.initial], [DrawEvent.consoleError])

/-- The renderingState after a draw call that entered with state st: the last
assignment made, or st when none was made. -/
def drawFinalState (hasPdfPage : Bool) (st : RState) (outcome : DrawOutcome) : RState :=
  ((drawRun hasPdfPage st outcome).1).getLastD st

/-- A pixel-space rectangle (CSS left/top/width/height inside a page
element). -/
structure PixelRect where
  left : ℚ
  top : ℚ
  width : ℚ
  height : ℚ
  deriving DecidableEq, Repr

/-- A DrawnBoundingBox: page number and normalized percentage coordinates
(0-100, y measured from the top). -/
structure DrawnBox where
  page : Nat
  x_min : ℚ
  x_max : ℚ
  y_min : ℚ
  y_max : ℚ
  deriving DecidableEq, Repr

/-- A BoundingBox in document points: origin at the bottom-left of the visual
page. -/
structure DocBox where
  page : Nat
  x : ℚ
  y : ℚ
  width : ℚ
  height : ℚ
  deriving DecidableEq, Repr

/-- The coordinate conversion of DrawingLayer's onMouseUp: a drawn pixel
rectangle is normalized against the viewport's pixel width and height into
0-100 percentages (y from the top). -/
def drawnBoxFromPixels (pageNumber : Nat) (r : PixelRect)
    (viewportWidth viewportHeight : ℚ) : DrawnBox :=
  { page := pageNumber,
    x_min := r.left / viewportWidth * 100,
    x_max := (r.left + r.width) / viewportWidth * 100,
    y_min := r.top / viewportHeight * 100,
    y_max := (r.top + r.height) / viewportHeight * 100 }

/-- convertNormalizedBoundingBoxes (per box): percentages to document points,
flipping y from top-origin to bottom-origin as pageHeight - y_max. -/
def convertNormalizedBox (b : DrawnBox) (pageWidth pageHeight : ℚ) : DocBox :=
  let x_min_points := b.x_min / 100 * pageWidth
  let x_max_points := b.x_max / 100 * pageWidth
  let y_min_points := b.y_min / 100 * pageHeight
  let y_max_points := b.y_max / 100 * pageHeight
  { page := b.page,
    x := x_min_points,
    y := pageHeight - y_max_points,
    width := x_max_points - x_min_points,
    height := y_max_points - y_min_points }

/-- The positioning computation of BoundingBoxLayer.renderBox: document
points to pixel space as left = x * scale,
top = viewport.height - (y + height) * scale, width and height scaled. -/
def renderBoxRect (b : DocBox) (scale viewportHeight : ℚ) : PixelRect :=
  { left := b.x * scale,
    top := viewportHeight - (b.y + b.height) * scale,
    width := b.width * scale,
    height := b.height * scale }

/-- An occurrence of a nonempty needle starts strictly before the end of the
haystack. -/
lemma occursAt_lt_length {needle haystack : List Char} {p : Nat}
    (h : occursAt needle haystack p = true) (hne : needle ≠ []) : p < haystack.length := by
  unfold occursAt at h
  rw [List.isPrefixOf_iff_prefix] at h
  have h1 : needle.length ≤ (haystack.drop p).length := h.length_le
  have h2 : 0 < needle.length := List.length_pos.mpr hne
  rw [List.length_drop] at h1
  omega

/-- A nonempty needle does not occur at or past the end of the haystack. -/
lemma occursAt_eq_false_of_le {needle haystack : List Char} (hne : needle ≠ []) {p : Nat}
    (h : haystack.length ≤ p) : occursAt needle haystack p = false := by
  cases hq : occursAt needle haystack p
  · rfl
  · exact absurd (occursAt_lt_length hq hne) (by omega)

/-- When the indexOf scan reports no occurrence and its fuel reaches the end
of the haystack, there is indeed no occurrence at or after the start
position. -/
lemma jsIndexOfFrom_none {needle haystack : List Char} (hne : needle ≠ []) :
    ∀ fuel pos, haystack.length + 1 ≤ pos + fuel →
      jsIndexOfFrom needle haystack pos fuel = none →
      ∀ p, pos ≤ p → occursAt needle haystack p = false := by
  intro fuel
  induction fuel with
  | zero =>
    intro pos hb _ p hp
    exact occursAt_eq_false_of_le hne (by omega)
  | succ fuel ih =>
    intro pos hb hnone p hp
    rw [jsIndexOfFrom] at hnone
    by_cases hc : occursAt needle haystack pos = true
    · rw [hc] at hnone
      simp at hnone
    · have hc' : occursAt needle haystack pos = false := by
        cases hq : occursAt needle haystack pos
        · rfl
        · exact absurd hq hc
      rw [hc'] at hnone
      simp at hnone
      rcases Nat.eq_or_lt_of_le hp with h | h
      · rw [← h]
        exact hc'
      · exact ih (pos + 1) (by omega) hnone p (by omega)

/-- When the indexOf scan reports position p, the needle occurs at p, p is at
or after the start position, and no occurrence lies strictly between. -/
lemma jsIndexOfFrom_some {needle haystack : List Char} :
    ∀ fuel pos p, jsIndexOfFrom needle haystack pos fuel = some p →
      pos ≤ p ∧ occursAt needle haystack p = true ∧
        ∀ q, pos ≤ q → q < p → occursAt needle haystack q = false := by
  intro fuel
  induction fuel with
  | zero =>
    intro pos p h
    simp [jsIndexOfFrom] at h
  | succ fuel ih =>
    intro pos p h
    rw [jsIndexOfFrom] at h
    by_cases hc : occursAt needle haystack pos = true
    · rw [hc] at h
      simp at h
      rw [← h]
      exact ⟨Nat.le_refl _, hc, fun q hq1 hq2 => absurd hq1 (by omega)⟩
    · have hc' : occursAt needle haystack pos = false := by
        cases hq : occursAt needle haystack pos
        · rfl
        · exact absurd hq hc
      rw [hc'] at h
      simp at h
      obtain ⟨h1, h2, h3⟩ := ih (pos + 1) p h
      refine ⟨by omega, h2, fun q hq1 hq2 => ?_⟩
      rcases Nat.eq_or_lt_of_le hq1 with heq | hlt
      · rw [← heq]
        exact hc'
      · exact h3 q (by omega) hq2

/-- The scan loop of FindController.find records exactly the positions at or
after its start position that the accepting predicate admits, provided its
fuel reaches the end of the haystack. -/
lemma scanMatches_eq {needle haystack : List Char} (hne : needle ≠ []) (w : Bool) :
    ∀ fuel pos, haystack.length + 1 ≤ pos + fuel →
      scanMatches needle haystack w pos fuel =
        (List.range' pos (haystack.length - pos)).filter (acceptPos needle haystack w) := by
  intro fuel
  induction fuel with
  | zero =>
    intro pos hb
    rw [scanMatches, show haystack.length - pos = 0 by omega]
    simp
  | succ fuel ih =>
    intro pos hb
    rw [scanMatches]
    cases hidx : jsIndexOfFrom needle haystack pos (haystack.length + 1) with
    | none =>
      have hall := jsIndexOfFrom_none hne (haystack.length + 1) pos (by omega) hidx
      symm
      rw [List.filter_eq_nil_iff]
      intro a ha
      have hmem := List.mem_range'_1.mp ha
      simp [acceptPos, hall a hmem.1]
    | some p =>
      obtain ⟨hpp, hocc, hgap⟩ := jsIndexOfFrom_some (haystack.length + 1) pos p hidx
      have hplt : p < haystack.length := occursAt_lt_length hocc hne
      have e1 : pos + 1 * (p - pos) = p := by omega
      have hsplit := List.range'_append pos (p - pos) (haystack.length - p) 1
      rw [e1] at hsplit
      rw [show haystack.length - pos = (haystack.length - p) + (p - pos) by omega, ← hsplit]
      rw [List.filter_append]
      have hfirst : (List.range' pos (p - pos)).filter (acceptPos needle haystack w) = [] := by
        rw [List.filter_eq_nil_iff]
        intro a ha
        have hmem := List.mem_range'_1.mp ha
        simp [acceptPos, hgap a hmem.1 (by omega)]
      rw [hfirst]
      rw [show haystack.length - p = (haystack.length - p - 1) + 1 by omega, List.range'_succ]
      rw [List.filter_cons]
      have hrest := ih (p + 1) (by omega)
      have hlen2 : haystack.length - p - 1 = haystack.length - (p + 1) := by omega
      cases w with
      | false =>
        have hacc : acceptPos needle haystack false p = true := by
          simp [acceptPos, hocc]
        simp [hacc, hlen2, hrest]
      | true =>
        cases hok : entireWordOk haystack needle p with
        | false =>
          have hacc : acceptPos needle haystack true p = false := by
            simp [acceptPos, hocc, hok]
          simp [hok, hacc, hlen2, hrest]
        | true =>
          have hacc : acceptPos needle haystack true p = true := by
            simp [acceptPos, hocc, hok]
          simp [hok, hacc, hlen2, hrest]

/-- The full scan from position 0: exactly the accepted positions of the
haystack, in increasing order. -/
lemma scanMatches_full {needle haystack : List Char} (hne : needle ≠ []) (w : Bool) :
    scanMatches needle haystack w 0 (haystack.length + 1) =
      (List.range haystack.length).filter (acceptPos needle haystack w) := by
  rw [scanMatches_eq hne w (haystack.length + 1) 0 (by omega), List.range_eq_range']
  simp

/-- Without the entire-word option the accepting predicate is plain
occurrence. -/
lemma acceptPos_false {needle haystack : List Char} :
    acceptPos needle haystack false = occursAt needle haystack := by
  funext p
  simp [acceptPos]

/-- Trimming the empty string gives the empty string. -/
lemma jsTrim_nil : jsTrim [] = [] := by
  simp [jsTrim]

/-- The per-page match list of find has exactly one entry per occurrence
position of the (case-folded) query in the page's concatenated text. -/
lemma pageSearch_length (i : Nat) (items : List (List Char)) (q : List Char) (cs : Bool)
    (hq : q ≠ []) :
    (pageSearch i items q cs false).length = countOccurrencesPage items q cs := by
  have hne : (if cs then q else jsToLower q) ≠ [] := by
    cases cs <;> simp [jsToLower, hq]
  unfold pageSearch countOccurrencesPage
  simp only [List.length_map, List.enum_length]
  rw [scanMatches_full hne false, acceptPos_false]

/-- The global match list of find has exactly one entry per occurrence
position across all pages. -/
lemma searchAllPages_length (pages : List (List (List Char))) (q : List Char) (cs : Bool)
    (hq : q ≠ []) :
    (searchAllPages pages q cs false).length = countOccurrences pages q cs := by
  unfold searchAllPages countOccurrences
  rw [List.length_flatten, List.map_map]
  have h1 : (List.length ∘ fun pi : Nat × List (List Char) =>
      pageSearch pi.1 pi.2 q cs false) = (fun pi : Nat × List (List Char) =>
        countOccurrencesPage pi.2 q cs) := by
    funext pi
    exact pageSearch_length pi.1 pi.2 q cs hq
  rw [h1]
  rw [show (fun pi : Nat × List (List Char) => countOccurrencesPage pi.2 q cs) =
      (fun items => countOccurrencesPage items q cs) ∘ Prod.snd from rfl]
  rw [← List.map_map, List.enum_map_snd]

/-- A query whose trim is nonempty is itself nonempty. -/
lemma ne_nil_of_jsTrim_ne_nil {q : List Char} (h : jsTrim q ≠ []) : q ≠ [] := by
  intro hq
  rw [hq] at h
  exact h jsTrim_nil

/-- The state produced by find for a non-blank query with at least one match:
options stored, the global match list installed, and the first (or, with
findPrevious, last) match selected and highlighted. -/
lemma findOp_found_state (pages : List (List (List Char))) (q : List Char)
    (hA cs w fp : Bool) (s : FindState) (hq : jsTrim q ≠ [])
    (hk : 0 < (searchAllPages pages q cs w).length) :
    (findOp pages ⟨q, hA, cs, w, fp⟩ s).1 =
      { query := q, highlightAll := hA, caseSensitive := cs, entireWord := w,
        allMatches := searchAllPages pages q cs w,
        selectedMatchIndex :=
          if fp then ((searchAllPages pages q cs w).length : Int) - 1 else 0,
        highlighted := highlightTargets hA (searchAllPages pages q cs w).length
          (if fp then ((searchAllPages pages q cs w).length : Int) - 1 else 0) } := by
  have hq0 : q ≠ [] := ne_nil_of_jsTrim_ne_nil hq
  have hc1 : q.isEmpty = false := by
    cases q
    · exact absurd rfl hq0
    · rfl
  have hc2 : (jsTrim q).isEmpty = false := by
    cases hj : jsTrim q
    · exact absurd hj hq
    · rfl
  unfold findOp
  rw [hc1, hc2]
  simp only [Bool.or_self, Bool.false_eq_true, if_false]
  rw [if_pos hk]

/-- findNext never changes the match list. -/
lemma findNextState_allMatches (s : FindState) :
    (findNextState s).allMatches = s.allMatches := by
  unfold findNextState findNextOp
  by_cases h : s.allMatches.length == 0
  · rw [if_pos h]
  · rw [if_neg h]

/-- findNext advances the selected index by one modulo the match count. -/
lemma findNextState_selected (s : FindState) (h : s.allMatches.length ≠ 0) :
    (findNextState s).selectedMatchIndex =
      Int.tmod (s.selectedMatchIndex + 1) (s.allMatches.length : Int) := by
  unfold findNextState findNextOp
  rw [if_neg (by simpa using h)]

/-- Control-state events never appear among the scroll events of
scrollToSelectedMatch. -/
lemma controlState_notMem_scroll (s : FindState) (n : Nat) :
    FindEvent.controlState n ∉ selectedScrollEvents s := by
  unfold selectedScrollEvents
  split
  · simp
  · split <;> simp

/-- Iterating findNext from a found search: the match list is unchanged and
the selected index after i steps is i modulo the match count. -/
lemma findNext_iterate (s0 : FindState) (k : Nat) (hk : 0 < k)
    (hlen : s0.allMatches.length = k) (hsel : s0.selectedMatchIndex = 0) :
    ∀ i : Nat, (findNextState^[i] s0).allMatches = s0.allMatches ∧
      (findNextState^[i] s0).selectedMatchIndex = ((i % k : Nat) : Int) := by
  intro i
  induction i with
  | zero =>
    refine ⟨rfl, ?_⟩
    rw [Function.iterate_zero_apply, hsel, Nat.zero_mod]
    rfl
  | succ i ih =>
    obtain ⟨ih1, ih2⟩ := ih
    have hlen' : (findNextState^[i] s0).allMatches.length = k := by rw [ih1, hlen]
    constructor
    · rw [Function.iterate_succ_apply', findNextState_allMatches, ih1]
    · rw [Function.iterate_succ_apply', findNextState_selected _ (by omega), hlen', ih2]
      have h1 : ((i % k : Nat) : Int) + 1 = ((i % k + 1 : Nat) : Int) := by push_cast; ring
      rw [h1, ← Int.ofNat_tmod]
      have h2 : (i % k + 1) % k = (i + 1) % k := Nat.mod_add_mod i k 1
      rw [h2]

/-- findNext reports WRAPPED exactly when the advanced index is 0. -/
lemma findNextOp_wrapped_iff (s : FindState) (h : s.allMatches.length ≠ 0) :
    (FindEvent.controlState 2 ∈ (findNextOp s).2 ↔
      Int.tmod (s.selectedMatchIndex + 1) (s.allMatches.length : Int) = 0) := by
  unfold findNextOp
  rw [if_neg (by simpa using h)]
  by_cases hz : Int.tmod (s.selectedMatchIndex + 1) (s.allMatches.length : Int) = 0
  · simp [hz]
  · simp [hz, controlState_notMem_scroll]

/-- C1: for a document whose pages contain k occurrences of the query
(distinct start positions, case-folded when caseSensitive is false), find
yields total = k with current = 1; iterating findNext advances the selected
index to i mod k after i calls, so k calls return to the first match, and the
WRAPPED control state is reported exactly on the k-th call. -/
theorem c1_search_total_and_next_cycle
    (pages : List (List (List Char))) (q : List Char) (cs : Bool) (s : FindState)
    (hq : jsTrim q ≠ [])
    (hk : 0 < countOccurrences pages q cs) :
    ((findOp pages ⟨q, true, cs, false, false⟩ s).1.allMatches.length
        = countOccurrences pages q cs) ∧
    matchesCount (findOp pages ⟨q, true, cs, false, false⟩ s).1
        = ⟨1, countOccurrences pages q cs⟩ ∧
    (∀ i : Nat,
      (findNextState^[i] (findOp pages ⟨q, true, cs, false, false⟩ s).1).selectedMatchIndex
        = ((i % countOccurrences pages q cs : Nat) : Int)) ∧
    (findNextState^[countOccurrences pages q cs]
        (findOp pages ⟨q, true, cs, false, false⟩ s).1).selectedMatchIndex = 0 ∧
    (∀ i : Nat, i < countOccurrences pages q cs →
      (FindEvent.controlState 2 ∈
          (findNextOp (findNextState^[i] (findOp pages ⟨q, true, cs, false, false⟩ s).1)).2
        ↔ i + 1 = countOccurrences pages q cs)) := by
  have hq0 : q ≠ [] := ne_nil_of_jsTrim_ne_nil hq
  have hlen : (searchAllPages pages q cs false).length = countOccurrences pages q cs :=
    searchAllPages_length pages q cs hq0
  have hkK : 0 < (searchAllPages pages q cs false).length := by
    rw [hlen]
    exact hk
  have hstate := findOp_found_state pages q true cs false false s hq hkK
  set k := countOccurrences pages q cs with hkdef
  set s0 := (findOp pages ⟨q, true, cs, false, false⟩ s).1 with hs0
  have hs0len : s0.allMatches.length = k := by
    rw [hstate]
    simpa using hlen
  have hs0sel : s0.selectedMatchIndex = 0 := by
    rw [hstate]
    simp
  have hiter := findNext_iterate s0 k hk hs0len hs0sel
  refine ⟨hs0len, ?_, fun i => (hiter i).2, ?_, ?_⟩
  · unfold matchesCount
    rw [hs0sel, hs0len]
    rfl
  · rw [(hiter k).2, Nat.mod_self]
    rfl
  · intro i hik
    have ht1 := (hiter i).1
    have ht2 := (hiter i).2
    have hlen' : (findNextState^[i] s0).allMatches.length = k := by
      rw [ht1, hs0len]
    rw [findNextOp_wrapped_iff _ (by omega), ht2, hlen']
    have hcalc : Int.tmod (((i % k : Nat) : Int) + 1) (k : Int) = (((i + 1) % k : Nat) : Int) := by
      have h1 : ((i % k : Nat) : Int) + 1 = ((i % k + 1 : Nat) : Int) := by push_cast; ring
      rw [h1, ← Int.ofNat_tmod, Nat.mod_add_mod]
    rw [hcalc]
    constructor
    · intro h0
      have hmod : (i + 1) % k = 0 := by exact_mod_cast h0
      rcases Nat.lt_or_ge (i + 1) k with hl | hg
      · rw [Nat.mod_eq_of_lt hl] at hmod
        omega
      · omega
    · intro h0
      rw [h0, Nat.mod_self]
      rfl

/-- Witness for C1 at a concrete three-match document (query occurring twice
on page 1 and once on page 2). -/
theorem c1_search_total_and_next_cycle_witness :
    (findOp [[[ 't', 'h', 'e', ' ' ], [ 't', 'h', 'e' ]], [[ 't', 'h', 'e' ]]]
        ⟨[ 't', 'h', 'e' ], true, false, false, false⟩
        ⟨[], true, false, false, [], -1, []⟩).1.allMatches.length
      = countOccurrences [[[ 't', 'h', 'e', ' ' ], [ 't', 'h', 'e' ]], [[ 't', 'h', 'e' ]]]
          [ 't', 'h', 'e' ] false :=
  (c1_search_total_and_next_cycle
    [[[ 't', 'h', 'e', ' ' ], [ 't', 'h', 'e' ]], [[ 't', 'h', 'e' ]]]
    [ 't', 'h', 'e' ] false ⟨[], true, false, false, [], -1, []⟩
    (by decide) (by decide)).1

/-- The cumulative-length table starts at 0. -/
lemma cumLen_zero (items : List (List Char)) : cumLen items 0 = 0 := rfl

/-- Cons step of the cumulative-length table. -/
lemma cumLen_cons_succ (x : List Char) (xs : List (List Char)) (k : Nat) :
    cumLen (x :: xs) (k + 1) = x.length + cumLen xs k := by
  simp [cumLen]

/-- Prefix sums of a list of naturals are monotone in the prefix length. -/
lemma sumTake_mono (l : List Nat) : ∀ a b : Nat, a ≤ b → (l.take a).sum ≤ (l.take b).sum := by
  induction l with
  | nil => intro a b _; simp
  | cons x xs ih =>
    intro a b hab
    cases a with
    | zero => simp
    | succ a =>
      cases b with
      | zero => omega
      | succ b =>
        simp only [List.take_succ_cons, List.sum_cons]
        have := ih a b (by omega)
        omega

/-- The cumulative-length table is monotone. -/
lemma cumLen_mono (items : List (List Char)) {a b : Nat} (h : a ≤ b) :
    cumLen items a ≤ cumLen items b := by
  unfold cumLen
  rw [List.map_take, List.map_take]
  exact sumTake_mono (items.map List.length) a b h

/-- Step of the cumulative-length table within bounds: adding the j-th
fragment's length. -/
lemma cumLen_succ_getD (items : List (List Char)) : ∀ j : Nat, j < items.length →
    cumLen items (j + 1) = cumLen items j + (items.getD j []).length := by
  induction items with
  | nil => intro j hj; simp at hj
  | cons x xs ih =>
    intro j hj
    cases j with
    | zero => simp [cumLen]
    | succ k =>
      rw [cumLen_cons_succ, cumLen_cons_succ, ih k (by simpa using hj)]
      simp [Nat.add_assoc]

/-- The whole table equals the length of the concatenated page text. -/
lemma cumLen_full (items : List (List Char)) :
    cumLen items items.length = items.flatten.length := by
  unfold cumLen
  rw [List.take_length, List.length_flatten]

/-- Correctness of the fragment-lookup loop: started with accumulators (c, j)
and a position inside the remaining total length, it stops at the first
fragment whose end exceeds the position, and its reported charIndex is the
cumulative length of the fragments skipped. -/
lemma divLookupAux_spec :
    ∀ (items : List (List Char)) (pos c j : Nat),
      c ≤ pos → pos < c + ((items.map List.length).sum) →
      j ≤ (divLookupAux items pos c j).1 ∧
      (divLookupAux items pos c j).1 - j < items.length ∧
      (divLookupAux items pos c j).2 = c + cumLen items ((divLookupAux items pos c j).1 - j) ∧
      (divLookupAux items pos c j).2 ≤ pos ∧
      pos < (divLookupAux items pos c j).2
        + (items.getD ((divLookupAux items pos c j).1 - j) []).length := by
  intro items
  induction items with
  | nil =>
    intro pos c j hc hlt
    simp at hlt
    omega
  | cons item rest ih =>
    intro pos c j hc hlt
    by_cases hbr : c + item.length > pos
    · rw [divLookupAux, if_pos hbr]
      refine ⟨Nat.le_refl _, by simp, by simp [cumLen], hc, ?_⟩
      simpa using hbr
    · rw [divLookupAux, if_neg hbr]
      have hlt' : pos < (c + item.length) + ((rest.map List.length).sum) := by
        simp only [List.map_cons, List.sum_cons] at hlt
        omega
      obtain ⟨h1, h2, h3, h4, h5⟩ := ih pos (c + item.length) (j + 1) (by omega) hlt'
      have hsub : (divLookupAux rest pos (c + item.length) (j + 1)).1 - j
          = ((divLookupAux rest pos (c + item.length) (j + 1)).1 - (j + 1)) + 1 := by
        omega
      refine ⟨by omega, by simp; omega, ?_, h4, ?_⟩
      · rw [hsub, cumLen_cons_succ]
        omega
      · rw [hsub, List.getD_cons_succ]
        exact h5

/-- C2: every match record produced by the per-page search carries the
fragment mapping of its flat offset pos: divIndex is the least j whose
cumulative fragment length exceeds pos, the in-fragment offset is pos minus
the cumulative length of the preceding fragments, and the search string the
offsets refer to is exactly the fragments joined in order with no separator
(its length is the full cumulative table entry). -/
theorem c2_match_fragment_mapping (i : Nat) (items : List (List Char)) (q : List Char)
    (cs w : Bool) (hq : q ≠ []) :
    ∀ m ∈ pageSearch i items q cs w, ∃ pos : Nat,
      occursAt (if cs then q else jsToLower q)
        (if cs then items.flatten else jsToLower items.flatten) pos = true ∧
      m.divIndex < items.length ∧
      cumLen items m.divIndex ≤ pos ∧
      pos < cumLen items (m.divIndex + 1) ∧
      (∀ j : Nat, pos < cumLen items (j + 1) → m.divIndex ≤ j) ∧
      m.offset = pos - cumLen items m.divIndex ∧
      (if cs then items.flatten else jsToLower items.flatten).length
        = cumLen items items.length := by
  intro m hm
  have hne : (if cs then q else jsToLower q) ≠ [] := by
    cases cs <;> simp [jsToLower, hq]
  unfold pageSearch at hm
  rw [List.mem_map] at hm
  obtain ⟨mi, hmi, hf⟩ := hm
  have hscan : mi.2 ∈ scanMatches (if cs then q else jsToLower q)
      (if cs then items.flatten else jsToLower items.flatten) w 0
      ((if cs then items.flatten else jsToLower items.flatten).length + 1) := by
    have h := List.mem_enum_iff_getElem?.mp hmi
    exact List.getElem?_mem h
  rw [scanMatches_full hne w] at hscan
  have hacc : acceptPos (if cs then q else jsToLower q)
      (if cs then items.flatten else jsToLower items.flatten) w mi.2 = true :=
    (List.mem_filter.mp hscan).2
  have hocc : occursAt (if cs then q else jsToLower q)
      (if cs then items.flatten else jsToLower items.flatten) mi.2 = true := by
    simp only [acceptPos, Bool.and_eq_true] at hacc
    exact hacc.1
  have hhaylen : (if cs then items.flatten else jsToLower items.flatten).length
      = (items.map List.length).sum := by
    cases cs
    · rw [show (if false = true then items.flatten else jsToLower items.flatten)
          = jsToLower items.flatten by simp]
      rw [jsToLower, List.length_map, List.length_flatten]
    · rw [show (if true = true then items.flatten else jsToLower items.flatten)
          = items.flatten by simp]
      rw [List.length_flatten]
  have hposlt : mi.2 < (items.map List.length).sum := by
    have := occursAt_lt_length hocc hne
    rw [hhaylen] at this
    exact this
  obtain ⟨h1, h2, h3, h4, h5⟩ := divLookupAux_spec items mi.2 0 0 (by omega) (by omega)
  have hdiv : m.divIndex = (divLookupAux items mi.2 0 0).1 := by
    rw [← hf]
  have hoff : m.offset = mi.2 - (divLookupAux items mi.2 0 0).2 := by
    rw [← hf]
  refine ⟨mi.2, hocc, ?_, ?_, ?_, ?_, ?_, ?_⟩
  · rw [hdiv]
    simpa using h2
  · rw [hdiv]
    simp only [Nat.sub_zero] at h3
    omega
  · rw [hdiv]
    have hlt := cumLen_succ_getD items (divLookupAux items mi.2 0 0).1 (by simpa using h2)
    simp only [Nat.sub_zero] at h3 h5
    omega
  · intro j hlt
    rw [hdiv]
    by_contra hcon
    push_neg at hcon
    have hmono : cumLen items (j + 1) ≤ cumLen items (divLookupAux items mi.2 0 0).1 :=
      cumLen_mono items (by omega)
    simp only [Nat.sub_zero] at h3
    omega
  · rw [hoff, hdiv]
    simp only [Nat.sub_zero] at h3
    omega
  · rw [hhaylen]
    unfold cumLen
    rw [List.take_length]

/-- C8: searching with an empty or whitespace-only query never fails: it
clears the match list, the selection and all highlight markup regardless of
the prior state, and reports current = 0, total = 0. -/
theorem c8_empty_query_clears (pages : List (List (List Char))) (opts : FindOptions)
    (s : FindState) (h : jsTrim opts.query = []) :
    (findOp pages opts s).1.query = [] ∧
    (findOp pages opts s).1.allMatches = [] ∧
    (findOp pages opts s).1.selectedMatchIndex = -1 ∧
    (findOp pages opts s).1.highlighted = [] ∧
    (findOp pages opts s).2 = [FindEvent.matchesCountEvent ⟨0, 0⟩] ∧
    matchesCount (findOp pages opts s).1 = ⟨0, 0⟩ := by
  have hc2 : (jsTrim opts.query).isEmpty = true := by
    rw [h]
    rfl
  unfold findOp
  rw [hc2]
  simp [matchesCount]

/-- Witness for C8: a whitespace-only query clears a prior search that had a
match and a highlight. -/
theorem c8_empty_query_clears_witness :
    (findOp [[[ 't', 'h', 'e' ]]] ⟨[ ' ', ' ' ], true, false, false, false⟩
        ⟨[ 't', 'h', 'e' ], true, false, false, [⟨0, 0, 0, 0, 3⟩], 0, [0]⟩).1.query = [] ∧
    (findOp [[[ 't', 'h', 'e' ]]] ⟨[ ' ', ' ' ], true, false, false, false⟩
        ⟨[ 't', 'h', 'e' ], true, false, false, [⟨0, 0, 0, 0, 3⟩], 0, [0]⟩).1.allMatches = [] ∧
    (findOp [[[ 't', 'h', 'e' ]]] ⟨[ ' ', ' ' ], true, false, false, false⟩
        ⟨[ 't', 'h', 'e' ], true, false, false, [⟨0, 0, 0, 0, 3⟩], 0,
          [0]⟩).1.selectedMatchIndex = -1 ∧
    (findOp [[[ 't', 'h', 'e' ]]] ⟨[ ' ', ' ' ], true, false, false, false⟩
        ⟨[ 't', 'h', 'e' ], true, false, false, [⟨0, 0, 0, 0, 3⟩], 0, [0]⟩).1.highlighted = [] ∧
    (findOp [[[ 't', 'h', 'e' ]]] ⟨[ ' ', ' ' ], true, false, false, false⟩
        ⟨[ 't', 'h', 'e' ], true, false, false, [⟨0, 0, 0, 0, 3⟩], 0, [0]⟩).2
      = [FindEvent.matchesCountEvent ⟨0, 0⟩] ∧
    matchesCount (findOp [[[ 't', 'h', 'e' ]]] ⟨[ ' ', ' ' ], true, false, false, false⟩
        ⟨[ 't', 'h', 'e' ], true, false, false, [⟨0, 0, 0, 0, 3⟩], 0, [0]⟩).1 = ⟨0, 0⟩ :=
  c8_empty_query_clears [[[ 't', 'h', 'e' ]]] ⟨[ ' ', ' ' ], true, false, false, false⟩
    ⟨[ 't', 'h', 'e' ], true, false, false, [⟨0, 0, 0, 0, 3⟩], 0, [0]⟩ (by decide)

/-- C9: out-of-range navigation is silently ignored: scrollToPage with a page
number below 1 or above the page count produces no state change and no
events, and findNext / findPrevious with an empty match list do nothing. -/
theorem c9_out_of_range_ignored (s : CoreState) (n : Int) (fs : FindState)
    (h1 : n < 1 ∨ (s.pages.length : Int) < n) (h2 : fs.allMatches = []) :
    scrollToPageOp s n = (s, []) ∧ findNextOp fs = (fs, []) ∧ findPreviousOp fs = (fs, []) := by
  refine ⟨?_, ?_, ?_⟩
  · rcases h1 with h | h
    · rw [scrollToPageOp, if_pos (by simp [h])]
    · rw [scrollToPageOp, if_pos (by simp [h])]
  · rw [findNextOp, if_pos (by simp [h2])]
  · rw [findPreviousOp, if_pos (by simp [h2])]

/-- Witness for C9 at a two-page viewer asked for page 5 and an empty match
list. -/
theorem c9_out_of_range_ignored_witness :
    scrollToPageOp ⟨[⟨1, 0, RState.initial⟩, ⟨1, 0, RState.initial⟩], 1, 0⟩ 5
        = (⟨[⟨1, 0, RState.initial⟩, ⟨1, 0, RState.initial⟩], 1, 0⟩, []) ∧
    findNextOp ⟨[], true, false, false, [], -1, []⟩ = (⟨[], true, false, false, [], -1, []⟩, []) ∧
    findPreviousOp ⟨[], true, false, false, [], -1, []⟩
        = (⟨[], true, false, false, [], -1, []⟩, []) :=
  c9_out_of_range_ignored ⟨[⟨1, 0, RState.initial⟩, ⟨1, 0, RState.initial⟩], 1, 0⟩ 5
    ⟨[], true, false, false, [], -1, []⟩ (by right; decide) (by rfl)

/-- C10: find with findPrevious = true and at least one match selects the
last match of the global page-ordered list (current = total); with
findPrevious = false it selects the first (current = 1). -/
theorem c10_find_direction_selects_endpoint (pages : List (List (List Char))) (q : List Char)
    (hA cs w : Bool) (s : FindState) (hq : jsTrim q ≠ [])
    (hk : 0 < (searchAllPages pages q cs w).length) :
    (findOp pages ⟨q, hA, cs, w, true⟩ s).1.selectedMatchIndex
        = ((searchAllPages pages q cs w).length : Int) - 1 ∧
    matchesCount (findOp pages ⟨q, hA, cs, w, true⟩ s).1
        = ⟨(searchAllPages pages q cs w).length, (searchAllPages pages q cs w).length⟩ ∧
    (findOp pages ⟨q, hA, cs, w, false⟩ s).1.selectedMatchIndex = 0 ∧
    matchesCount (findOp pages ⟨q, hA, cs, w, false⟩ s).1
        = ⟨1, (searchAllPages pages q cs w).length⟩ := by
  have h1 := findOp_found_state pages q hA cs w true s hq hk
  have h2 := findOp_found_state pages q hA cs w false s hq hk
  refine ⟨?_, ?_, ?_, ?_⟩
  · rw [h1]
    simp
  · rw [h1]
    unfold matchesCount
    simp only [MatchesCount.mk.injEq, and_true, eq_self_iff_true, if_true]
    omega
  · rw [h2]
    simp
  · rw [h2]
    unfold matchesCount
    simp

/-- Witness for C10 at a concrete two-match document. -/
theorem c10_find_direction_selects_endpoint_witness :
    (findOp [[[ 'a', 'b', 'a' ]]] ⟨[ 'a' ], true, false, false, true⟩
        ⟨[], true, false, false, [], -1, []⟩).1.selectedMatchIndex
        = ((searchAllPages [[[ 'a', 'b', 'a' ]]] [ 'a' ] false false).length : Int) - 1 ∧
    matchesCount (findOp [[[ 'a', 'b', 'a' ]]] ⟨[ 'a' ], true, false, false, true⟩
        ⟨[], true, false, false, [], -1, []⟩).1
        = ⟨(searchAllPages [[[ 'a', 'b', 'a' ]]] [ 'a' ] false false).length,
            (searchAllPages [[[ 'a', 'b', 'a' ]]] [ 'a' ] false false).length⟩ ∧
    (findOp [[[ 'a', 'b', 'a' ]]] ⟨[ 'a' ], true, false, false, false⟩
        ⟨[], true, false, false, [], -1, []⟩).1.selectedMatchIndex = 0 ∧
    matchesCount (findOp [[[ 'a', 'b', 'a' ]]] ⟨[ 'a' ], true, false, false, false⟩
        ⟨[], true, false, false, [], -1, []⟩).1
        = ⟨1, (searchAllPages [[[ 'a', 'b', 'a' ]]] [ 'a' ] false false).length⟩ :=
  c10_find_direction_selects_endpoint [[[ 'a', 'b', 'a' ]]] [ 'a' ] true false false
    ⟨[], true, false, false, [], -1, []⟩ (by decide) (by decide)

/-- Witness for C2: the match of "bc" in the fragment list ["ab", "c"] starts
in fragment 0 at in-fragment offset 1. -/
theorem c2_match_fragment_mapping_witness :
    ∃ pos : Nat,
      occursAt [ 'b', 'c' ] [[ 'a', 'b' ], [ 'c' ]].flatten pos = true ∧
      (0 : Nat) < [[ 'a', 'b' ], [ 'c' ]].length ∧
      cumLen [[ 'a', 'b' ], [ 'c' ]] 0 ≤ pos ∧
      pos < cumLen [[ 'a', 'b' ], [ 'c' ]] (0 + 1) ∧
      (∀ j : Nat, pos < cumLen [[ 'a', 'b' ], [ 'c' ]] (j + 1) → (0 : Nat) ≤ j) ∧
      (1 : Nat) = pos - cumLen [[ 'a', 'b' ], [ 'c' ]] 0 ∧
      [[ 'a', 'b' ], [ 'c' ]].flatten.length = cumLen [[ 'a', 'b' ], [ 'c' ]] 2 :=
  c2_match_fragment_mapping 0 [[ 'a', 'b' ], [ 'c' ]] [ 'b', 'c' ] true false (by decide)
    ⟨0, 0, 0, 1, 2⟩ (by decide)

/-- The truncated remainder by 360 is strictly greater than -360. -/
lemma tmod360_lower (v : Int) : -360 < Int.tmod v 360 := by
  cases v with
  | ofNat n =>
    have h : 0 ≤ Int.tmod (Int.ofNat n) 360 := Int.tmod_nonneg 360 (Int.ofNat_nonneg n)
    omega
  | negSucc n =>
    have h : Int.tmod (Int.negSucc n) 360 = -Int.ofNat (Nat.succ n % 360) := rfl
    have h2 : Nat.succ n % 360 < 360 := Nat.mod_lt _ (by norm_num)
    rw [h]
    have h3 : Int.ofNat (Nat.succ n % 360) = ((Nat.succ n % 360 : Nat) : Int) := rfl
    rw [h3]
    omega

/-- The setter's double-remainder normalization is the canonical residue
modulo 360. -/
lemma setRotationValue_eq_emod (v : Int) : setRotationValue v = v % 360 := by
  unfold setRotationValue
  have hlow : -360 < Int.tmod v 360 := tmod360_lower v
  have h1 : Int.tmod (Int.tmod v 360 + 360) 360 = (Int.tmod v 360 + 360) % 360 :=
    Int.tmod_eq_emod (by omega) (by norm_num)
  rw [h1]
  have h2 : Int.tmod v 360 = v - 360 * Int.tdiv v 360 := by
    have := Int.tmod_def v 360
    omega
  rw [h2, show v - 360 * Int.tdiv v 360 + 360 = v + 360 * (1 - Int.tdiv v 360) by ring]
  exact Int.add_mul_emod_self_left v 360 (1 - Int.tdiv v 360)

/-- Normalizing a multiple of 90 lands in the four right-angle values. -/
lemma setRotationValue_mem (v : Int) (h : (90 : Int) ∣ v) :
    setRotationValue v ∈ ([0, 90, 180, 270] : List Int) := by
  rw [setRotationValue_eq_emod]
  have h0 : 0 ≤ v % 360 := Int.emod_nonneg v (by norm_num)
  have h1 : v % 360 < 360 := Int.emod_lt_of_pos v (by norm_num)
  have h2 : (90 : Int) ∣ v % 360 := by
    rw [Int.emod_def]
    exact Int.dvd_sub h (Dvd.dvd.mul_right (by norm_num) _)
  obtain ⟨k, hk⟩ := h2
  have hkb : k = 0 ∨ k = 1 ∨ k = 2 ∨ k = 3 := by omega
  rcases hkb with hkv | hkv | hkv | hkv <;> rw [hk, hkv] <;> norm_num

/-- The four right-angle values are multiples of 90. -/
lemma mem_ninety_dvd (r : Int) (h : r ∈ ([0, 90, 180, 270] : List Int)) : (90 : Int) ∣ r := by
  simp only [List.mem_cons, List.not_mem_nil, or_false] at h
  rcases h with h | h | h | h <;> rw [h] <;> norm_num

/-- C4 counterexample: assigning 45 through the rotation setter from the
initial rotation 0 stores 45, which is not one of the four right-angle
values. The setter only normalizes modulo 360, it does not snap to multiples
of 90. -/
theorem c4_rotation_counterexample :
    applyRotOps 0 [RotOp.assign 45] = 45 ∧
      45 ∉ ([0, 90, 180, 270] : List Int) := by
  constructor
  · decide
  · decide

/-- C4 amended: after any sequence of rotateClockwise, rotateCounterClockwise
and setter assignments of integer multiples of 90, starting from rotation 0,
the rotation is one of 0, 90, 180, 270. -/
theorem c4_rotation_invariant_amended (ops : List RotOp)
    (h : ∀ v : Int, RotOp.assign v ∈ ops → (90 : Int) ∣ v) :
    applyRotOps 0 ops ∈ ([0, 90, 180, 270] : List Int) := by
  suffices hgen : ∀ (l : List RotOp) (r : Int), r ∈ ([0, 90, 180, 270] : List Int) →
      (∀ v : Int, RotOp.assign v ∈ l → (90 : Int) ∣ v) →
      applyRotOps r l ∈ ([0, 90, 180, 270] : List Int) by
    exact hgen ops 0 (by norm_num) h
  intro l
  induction l with
  | nil =>
    intro r hr _
    exact hr
  | cons op rest ih =>
    intro r hr hops
    have hdvd : (90 : Int) ∣ r := mem_ninety_dvd r hr
    have hstep : applyRotOp r op ∈ ([0, 90, 180, 270] : List Int) := by
      cases op with
      | clockwise => exact setRotationValue_mem _ (by omega)
      | counterClockwise => exact setRotationValue_mem _ (by omega)
      | assign v => exact setRotationValue_mem _ (hops v (by simp))
    exact ih (applyRotOp r op) hstep (fun v hv => hops v (by simp [hv]))

/-- Witness for C4 amended: a clockwise turn followed by assigning 450
normalizes to 90. -/
theorem c4_rotation_invariant_amended_witness :
    applyRotOps 0 [RotOp.clockwise, RotOp.assign 450] ∈ ([0, 90, 180, 270] : List Int) :=
  c4_rotation_invariant_amended [RotOp.clockwise, RotOp.assign 450]
    (by
      intro v hv
      simp at hv
      rw [hv]
      norm_num)

/-- A visibility pass never changes the number of page slots. -/
lemma updateVisiblePagesM_length (vis : List Nat) (s : CoreState) :
    (updateVisiblePagesM vis s).pages.length = s.pages.length := by
  simp [updateVisiblePagesM]

/-- The scale setter never changes the number of page slots. -/
lemma setScaleOp_pages_length (s : CoreState) (v : ℚ) (vis : List Nat) :
    (setScaleOp s v vis).pages.length = s.pages.length := by
  by_cases h : clampScale v = s.currentScale
  · simp [setScaleOp, h]
  · simp [setScaleOp, h, updateVisiblePagesM]

/-- The rotation setter never changes the number of page slots. -/
lemma setRotationOp_pages_length (s : CoreState) (v : Int) (vis : List Nat) :
    (setRotationOp s v vis).pages.length = s.pages.length := by
  by_cases h : setRotationValue v = s.currentRotation
  · simp [setRotationOp, h]
  · simp [setRotationOp, h, updateVisiblePagesM]

/-- No public viewport operation changes the number of page slots. -/
lemma applyViewerOp_pages_length (s : CoreState) (op : ViewerOp) :
    (applyViewerOp s op).pages.length = s.pages.length := by
  cases op with
  | setScale v vis => exact setScaleOp_pages_length s v vis
  | setRotation v vis => exact setRotationOp_pages_length s v vis
  | zoomIn vis => exact setScaleOp_pages_length s _ vis
  | zoomOut vis => exact setScaleOp_pages_length s _ vis
  | rotateClockwise vis => exact setRotationOp_pages_length s _ vis
  | rotateCounterClockwise vis => exact setRotationOp_pages_length s _ vis

/-- C6: after loading a document the number of page slots equals the page
count reported by the document engine, and any sequence of scale and
rotation changes leaves that count unchanged (the setters update every
existing slot in place and never add or remove slots). -/
theorem c6_slot_count_invariant (numPages : Nat) (scale : ℚ) (rotation : Int)
    (ops : List ViewerOp) :
    (applyViewerOps (setDocumentM numPages scale rotation) ops).pages.length = numPages := by
  suffices hgen : ∀ (l : List ViewerOp) (s : CoreState),
      (applyViewerOps s l).pages.length = s.pages.length by
    rw [hgen]
    simp [setDocumentM]
  intro l
  induction l with
  | nil => intro s; rfl
  | cons op rest ih =>
    intro s
    rw [applyViewerOps, List.foldl_cons]
    have h1 := ih (applyViewerOp s op)
    rw [applyViewerOps] at h1
    rw [h1, applyViewerOp_pages_length]

/-- The drain loop either exhausts the queue without touching the slots, or
starts exactly one draw: the first queued slot still at INITIAL, which it
sets to RUNNING. -/
lemma drainQueue_spec (pages : List RState) :
    ∀ q : List Nat,
      ((drainQueue pages q).2.2 = none → (drainQueue pages q).1 = pages) ∧
      (∀ i : Nat, (drainQueue pages q).2.2 = some i →
        pages.get? i = some RState.initial ∧
          (drainQueue pages q).1 = pages.set i RState.running) := by
  intro q
  induction q with
  | nil =>
    refine ⟨fun _ => rfl, fun i h => ?_⟩
    simp [drainQueue] at h
  | cons j rest ih =>
    by_cases hj : pages.get? j = some RState.initial
    · rw [drainQueue, if_pos hj]
      refine ⟨fun h => by simp at h, fun i h => ?_⟩
      simp only [Option.some.injEq] at h
      rw [← h]
      exact ⟨hj, rfl⟩
    · rw [drainQueue, if_neg hj]
      exact ih

/-- A slot set to RUNNING reads back RUNNING. -/
lemma get?_set_running (pages : List RState) (i : Nat)
    (h : pages.get? i = some RState.initial) :
    (pages.set i RState.running).get? i = some RState.running := by
  obtain ⟨hlt, _⟩ := List.get?_eq_some.mp h
  rw [List.get?_eq_getElem?]
  exact List.getElem?_set_eq_of_lt RState.running hlt

/-- The scheduler invariant holds right after setDocument. -/
lemma schedInv_init (n : Nat) : SchedInv (initSched n) := by
  refine ⟨fun _ => rfl, by simp [initSched], fun i hi => ?_⟩
  simp [initSched] at hi

/-- Entering processRenderingQueue preserves the scheduler invariant. -/
lemma schedInv_processQueueEntry (s : SchedState) (h : SchedInv s) :
    SchedInv (processQueueEntry s) := by
  obtain ⟨h1, h2, h3⟩ := h
  unfold processQueueEntry
  by_cases hir : (s.isRendering || s.renderingQueue.length == 0) = true
  · rw [if_pos hir]
    exact ⟨h1, h2, h3⟩
  · rw [if_neg hir]
    have hirF : s.isRendering = false := by
      by_contra hcon
      rw [Bool.not_eq_false] at hcon
      simp [hcon] at hir
    have hact : s.active = [] := h1 hirF
    cases hd : (drainQueue s.pages s.renderingQueue).2.2 with
    | none =>
      exact ⟨fun _ => hact, by simp [hact], fun i hi => by simp [hact] at hi⟩
    | some i =>
      obtain ⟨hinit, hset⟩ := ((drainQueue_spec s.pages s.renderingQueue).2) i hd
      refine ⟨fun hcon => by simp at hcon, by simp [hact], fun j hj => ?_⟩
      simp [hact] at hj
      rw [hj, hset]
      exact get?_set_running s.pages i hinit

/-- Resuming the drain after a draw completion preserves the invariant when
at most the completed job was in flight. -/
lemma schedInv_completeStep (s : SchedState) (outcome : DrawOutcome) (i : Nat) :
    SchedInv (completeStep s outcome i []) := by
  unfold completeStep
  cases hd : (drainQueue (completePages s.pages i outcome) s.renderingQueue).2.2 with
  | none =>
    exact ⟨fun _ => rfl, by simp, fun j hj => by simp at hj⟩
  | some j =>
    obtain ⟨hinit, hset⟩ :=
      ((drainQueue_spec (completePages s.pages i outcome) s.renderingQueue).2) j hd
    refine ⟨fun hcon => by simp at hcon, by simp, fun j2 hj2 => ?_⟩
    simp at hj2
    rw [hj2, hset]
    exact get?_set_running _ j hinit

/-- Every event-loop turn preserves the scheduler invariant. -/
lemma schedInv_step (s : SchedState) (a : SchedAction) (h : SchedInv s) :
    SchedInv (applySchedAction s a) := by
  obtain ⟨h1, h2, h3⟩ := h
  cases a with
  | visibilityPass r =>
    rw [applySchedAction]
    exact schedInv_processQueueEntry _ ⟨h1, h2, h3⟩
  | drawComplete outcome =>
    rw [applySchedAction]
    cases hactv : s.active with
    | nil => exact ⟨h1, h2, h3⟩
    | cons i0 restActive =>
      have hrest : restActive = [] := by
        rw [hactv] at h2
        cases restActive
        · rfl
        · exfalso
          rw [List.length_cons, List.length_cons] at h2
          omega
      rw [hrest]
      exact schedInv_completeStep s outcome i0

/-- The scheduler invariant holds in every state reachable from a freshly
loaded document. -/
lemma schedInv_reachable (n : Nat) (acts : List SchedAction) :
    SchedInv (applySchedActions (initSched n) acts) := by
  suffices hgen : ∀ (l : List SchedAction) (s : SchedState), SchedInv s →
      SchedInv (applySchedActions s l) by
    exact hgen acts (initSched n) (schedInv_init n)
  intro l
  induction l with
  | nil => intro s hs; exact hs
  | cons a rest ih =>
    intro s hs
    rw [applySchedActions, List.foldl_cons]
    exact ih (applySchedAction s a) (schedInv_step s a hs)

/-- The queueing loop of a visibility pass changes nothing about queue
entries selected by a predicate that rejects every INITIAL slot: it only adds
indices whose slot is INITIAL. -/
lemma enqueueVisible_filter_eq (pages : List RState) (p : Nat → Bool)
    (hp : ∀ i : Nat, p i = true → pages.get? i ≠ some RState.initial) :
    ∀ (r q : List Nat), (enqueueVisible pages q r).filter p = q.filter p := by
  intro r
  induction r with
  | nil => intro q; rfl
  | cons i rest ih =>
    intro q
    rw [enqueueVisible, List.foldl_cons]
    by_cases hi : pages.get? i = some RState.initial
    · rw [if_pos hi]
      have hadd : (setAdd q i).filter p = q.filter p := by
        unfold setAdd
        by_cases hmem : i ∈ q
        · rw [if_pos hmem]
        · rw [if_neg hmem, List.filter_append]
          have hpi : p i = false := by
            cases hpv : p i
            · rfl
            · exact absurd hi (hp i hpv)
          simp [hpi]
      have := ih (setAdd q i)
      rw [enqueueVisible] at this
      rw [this, hadd]
    · rw [if_neg hi]
      have := ih q
      rw [enqueueVisible] at this
      rw [this]

/-- C3: at most one page raster job is ever active at a time — in every state
reachable by visibility passes and draw completions, the in-flight list has
length at most one — and a visibility pass that arrives while the queue is
draining (isRendering set) only adds work items to the renderingQueue,
leaving the slots, the flag and the in-flight job untouched, and never
re-enqueues the in-flight slot (the work items seen through the in-flight
filter are unchanged). -/
theorem c3_single_raster_job (n : Nat) (acts : List SchedAction) (r : List Nat) :
    (applySchedActions (initSched n) acts).active.length ≤ 1 ∧
    ((applySchedActions (initSched n) acts).isRendering = true →
      applySchedAction (applySchedActions (initSched n) acts) (SchedAction.visibilityPass r)
        = { applySchedActions (initSched n) acts with
            renderingQueue :=
              enqueueVisible (applySchedActions (initSched n) acts).pages
                (applySchedActions (initSched n) acts).renderingQueue r }) ∧
    ((applySchedActions (initSched n) acts).isRendering = true →
      (enqueueVisible (applySchedActions (initSched n) acts).pages
          (applySchedActions (initSched n) acts).renderingQueue r).filter
          (fun i => decide (i ∈ (applySchedActions (initSched n) acts).active))
        = (applySchedActions (initSched n) acts).renderingQueue.filter
            (fun i => decide (i ∈ (applySchedActions (initSched n) acts).active))) := by
  obtain ⟨h1, h2, h3⟩ := schedInv_reachable n acts
  refine ⟨h2, fun hir => ?_, fun hir => ?_⟩
  · rw [applySchedAction]
    unfold processQueueEntry
    rw [if_pos (by simp [hir])]
  · refine enqueueVisible_filter_eq _ _ (fun i hpi => ?_) r _
    have hmem : i ∈ (applySchedActions (initSched n) acts).active := of_decide_eq_true hpi
    rw [h3 i hmem]
    intro hcon
    exact absurd (Option.some.injEq _ _ ▸ hcon) (by simp)

/-- Witness for C3: after one visibility pass on a fresh three-page document
the first draw is in flight (isRendering is set), and a second pass arriving
mid-drain only adds work items. -/
theorem c3_single_raster_job_witness :
    (applySchedActions (initSched 3) [SchedAction.visibilityPass [0, 1]]).active.length ≤ 1 ∧
    applySchedAction (applySchedActions (initSched 3) [SchedAction.visibilityPass [0, 1]])
        (SchedAction.visibilityPass [0, 1, 2])
      = { applySchedActions (initSched 3) [SchedAction.visibilityPass [0, 1]] with
          renderingQueue :=
            enqueueVisible
              (applySchedActions (initSched 3) [SchedAction.visibilityPass [0, 1]]).pages
              (applySchedActions (initSched 3) [SchedAction.visibilityPass [0, 1]]).renderingQueue
              [0, 1, 2] } ∧
    (enqueueVisible
        (applySchedActions (initSched 3) [SchedAction.visibilityPass [0, 1]]).pages
        (applySchedActions (initSched 3) [SchedAction.visibilityPass [0, 1]]).renderingQueue
        [0, 1, 2]).filter
        (fun i => decide
          (i ∈ (applySchedActions (initSched 3) [SchedAction.visibilityPass [0, 1]]).active))
      = (applySchedActions (initSched 3)
          [SchedAction.visibilityPass [0, 1]]).renderingQueue.filter
          (fun i => decide
            (i ∈ (applySchedActions (initSched 3)
              [SchedAction.visibilityPass [0, 1]]).active)) :=
  ⟨(c3_single_raster_job 3 [SchedAction.visibilityPass [0, 1]] [0, 1, 2]).1,
    (c3_single_raster_job 3 [SchedAction.visibilityPass [0, 1]] [0, 1, 2]).2.1 (by decide),
    (c3_single_raster_job 3 [SchedAction.visibilityPass [0, 1]] [0, 1, 2]).2.2 (by decide)⟩

/-- C7: PDFPageView.draw is a no-op unless a page is attached and the slot's
state is INITIAL; when it runs, its first state assignment is RUNNING; a
rendering failure other than cancellation puts the slot back to INITIAL and
only logs to the console (no exception escapes), so the next visibility pass
can retry the slot; a cancellation is suppressed silently, emitting no event
and never surfacing as an error; a success finishes the slot and dispatches
pagerendered. -/
theorem c7_draw_lifecycle (hasPdfPage : Bool) (st : RState) (outcome : DrawOutcome) :
    (¬(hasPdfPage = true ∧ st = RState.initial) →
      drawRun hasPdfPage st outcome = ([], [])) ∧
    (hasPdfPage = true → st = RState.initial →
      (drawRun hasPdfPage st outcome).1.head? = some RState.running ∧
      (outcome = DrawOutcome.failure →
        drawFinalState hasPdfPage st outcome = RState.initial ∧
        (drawRun hasPdfPage st outcome).2 = [DrawEvent.consoleError]) ∧
      (outcome = DrawOutcome.cancelled → (drawRun hasPdfPage st outcome).2 = []) ∧
      (outcome = DrawOutcome.success →
        drawFinalState hasPdfPage st outcome = RState.finished ∧
        (drawRun hasPdfPage st outcome).2 = [DrawEvent.pagerendered])) := by
  cases hasPdfPage <;> cases st <;> cases outcome <;>
    simp [drawRun, drawFinalState]

/-- Witness for C7: a failing draw from INITIAL ran (first assignment
RUNNING), left the slot at INITIAL and only logged. -/
theorem c7_draw_lifecycle_witness :
    (drawRun true RState.initial DrawOutcome.failure).1.head? = some RState.running ∧
    drawFinalState true RState.initial DrawOutcome.failure = RState.initial ∧
    (drawRun true RState.initial DrawOutcome.failure).2 = [DrawEvent.consoleError] ∧
    (drawRun true RState.running DrawOutcome.failure = ([], []) ∧
      (drawRun true RState.initial DrawOutcome.cancelled).2 = []) :=
  ⟨((c7_draw_lifecycle true RState.initial DrawOutcome.failure).2 rfl rfl).1,
    (((c7_draw_lifecycle true RState.initial DrawOutcome.failure).2 rfl rfl).2.1 rfl).1,
    (((c7_draw_lifecycle true RState.initial DrawOutcome.failure).2 rfl rfl).2.1 rfl).2,
    (c7_draw_lifecycle true RState.running DrawOutcome.failure).1 (by simp),
    ((c7_draw_lifecycle true RState.initial DrawOutcome.cancelled).2 rfl rfl).2.2.1 rfl⟩

/-- C5: the draw-to-document conversion (pixel rectangle, normalized to 0-100
percentages against the viewport, then to document points with the y axis
flipped as pageHeight - y_max) followed by the document-to-pixel conversion
of the box renderer (x * scale, viewport.height - (y + height) * scale, sizes
scaled) reconstructs the original rectangle exactly in exact arithmetic, for
every rotation in {0, 90, 180, 270}. The two conversions never read the
rotation: for each rotation value the viewport hands them the visual page
dimensions (already swapped for 90 and 270), here pageWidth and pageHeight
with viewport extents pageWidth * scale and pageHeight * scale. -/
theorem c5_coordinate_roundtrip (rot : Int) (pageNumber : Nat) (r : PixelRect)
    (pageWidth pageHeight scale : ℚ)
    (hrot : rot ∈ ([0, 90, 180, 270] : List Int))
    (hs : scale ≠ 0) (hw : pageWidth ≠ 0) (hh : pageHeight ≠ 0) :
    renderBoxRect
      (convertNormalizedBox
        (drawnBoxFromPixels pageNumber r (pageWidth * scale) (pageHeight * scale))
        pageWidth pageHeight)
      scale (pageHeight * scale) = r := by
  rcases r with ⟨l, t, wd, ht⟩
  unfold drawnBoxFromPixels convertNormalizedBox renderBoxRect
  simp only [PixelRect.mk.injEq]
  refine ⟨?_, ?_, ?_, ?_⟩ <;> field_simp <;> ring

/-- Witness for C5 at rotation 90, a 100 x 200 point page at scale 2, and the
pixel rectangle (10, 20, 30, 40). -/
theorem c5_coordinate_roundtrip_witness :
    renderBoxRect
      (convertNormalizedBox
        (drawnBoxFromPixels 1 ⟨10, 20, 30, 40⟩ ((100 : ℚ) * 2) ((200 : ℚ) * 2))
        100 200)
      2 ((200 : ℚ) * 2) = ⟨10, 20, 30, 40⟩ :=
  c5_coordinate_roundtrip 90 1 ⟨10, 20, 30, 40⟩ 100 200 2 (by norm_num) (by norm_num)
    (by norm_num) (by norm_num)
